import Mathlib

/-!
# Transmission input plugin: session-aware RPC client

A shallow embedding of `plugins/inputs/transmission/rpc_client.go` and
`plugins/inputs/transmission/transmission.go`.

Conventions of the embedding

* Go pointers to structs are modelled by the struct they point to, except
  the elements of `[]*torrent`, which the decoder can leave nil.
* The receiver `c *rpcClient` is mutable state: every operation takes the
  client and returns the client it leaves behind.
* `c.HTTPClient` is the outside world.  It is modelled by a transition
  function on an arbitrary server state `σ`: given the state and the request
  as it goes over the wire it yields the next state and either a transport
  error or a response.  Taking `σ` to be the history of requests covers every
  deterministic server.  The client of `net/http` follows redirects: one call
  of `c.HTTPClient.Do` can put several requests on the wire, as its redirect
  policy decides, up to the limit of that policy.
* Every call of `c.HTTPClient.Do` is recorded in a log of attempts, so that
  statements about "the first attempt" and "the second attempt" can be made;
  an attempt records the request handed to the HTTP client and every request
  that call put on the wire.
* Library routines that are not part of the repository (`encoding/json`,
  `net/url`, `net`) are parameters, collected in `Lib`.
* `fmt.Errorf(format, arg)` is kept symbolic as `GoError.errorf format arg`.
-/

namespace Transmission

/-! ## Go values -/

/-- A byte slice. -/
abbrev Bytes := List Nat

/-- Go `error` values: either produced by a library routine, or built by
`fmt.Errorf` from a format string and one argument. -/
inductive GoError where
  | lib (msg : String)
  | errorf (format : String) (arg : String)
deriving DecidableEq, Repr

/-- The three ways a Go call that returns `(value, error)` can end: with a
value and a nil error, with an error, or with a run-time panic. -/
inductive Outcome (α : Type) where
  | ok (v : α)
  | error (err : GoError)
  | panic (msg : String)
deriving DecidableEq, Repr

/-- An `io.Reader` seen through `ioutil.ReadAll`: the bytes it yields and the
error, if any, that it ends with instead of end-of-file. -/
structure Reader where
  data : Bytes
  err : Option GoError
deriving DecidableEq, Repr

/-- The call `ioutil.ReadAll(r)`, as used by the callers here, which drop the
bytes when the error is not nil. -/
def ioutil_ReadAll (r : Reader) : Except GoError Bytes :=
  match r.err with
  | some err => .error err
  | none => .ok r.data

/-- The readers `bytes.NewBuffer(b)` and `bytes.NewReader(b)`. -/
def bytes_NewBuffer (b : Bytes) : Reader := ⟨b, none⟩

/-- A reader that has been read to its end. -/
def Reader.drained : Reader := ⟨[], none⟩

/-- The type `http.Header`: the values held under each canonical key, in
order; a key that is absent holds no value. -/
structure Header where
  values : String → List String

/-- An empty header map. -/
def Header.empty : Header := ⟨fun _ => []⟩

/-- The method `Header.Del(key)`. -/
def Header.Del (h : Header) (key : String) : Header :=
  ⟨fun k => if k = key then [] else h.values k⟩

/-- The method `Header.Add(key, value)`: appends to the values of the key. -/
def Header.Add (h : Header) (key value : String) : Header :=
  ⟨fun k => if k = key then h.values k ++ [value] else h.values k⟩

/-- The method `Header.Get(key)`: the first value of the key, or `""`. -/
def Header.Get (h : Header) (key : String) : String :=
  (h.values key).headD ""

/-- The header key of the session token; it is in canonical form already. -/
def sessionHeader : String := "X-Transmission-Session-Id"

/-- The constant `http.StatusConflict`. -/
def http_StatusConflict : Int := 409

/-- The fields of `*http.Request` that the client touches. -/
structure Request where
  Method : String
  URL : String
  Header : Header
  Body : Reader

/-- A request as it goes over the wire: the body has been read. -/
structure Sent where
  Method : String
  URL : String
  Header : Header
  Body : Bytes

/-- The fields of `*http.Response` that the client reads. -/
structure Response where
  StatusCode : Int
  Status : String
  Header : Header
  Body : Reader

/-- The field `HTTPClient` of the client together with the server behind it. -/
structure HTTPClient (σ : Type) where
  /-- One request on the wire and what the server answers to it. -/
  roundTrip : σ → Sent → σ × Except GoError Response
  /-- The redirect policy of the library client: the request it sends next
  when it follows the response to a request, nothing when it returns the
  response to its caller. -/
  redirect : Sent → Response → Option Sent
  /-- The number of requests the redirect policy allows in one call; the
  default policy of `net/http` stops after 10. -/
  maxRequests : Nat

/-- What one call of the library client comes to: the server state it leaves,
its result, and the requests it put on the wire, oldest first. -/
structure Exchange (σ : Type) where
  server : σ
  answer : Except GoError Response
  wire : List Sent

/-- The loop of `http.Client.Do`: send the request; when the redirect policy
follows the response, send the next request, as long as the policy allows
another one; otherwise return the response. -/
def HTTPClient.follow {σ : Type} (h : HTTPClient σ) : Nat → σ → Sent → Exchange σ
  | 0, s, _ => ⟨s, .error (.lib "stopped after too many redirects"), []⟩
  | n + 1, s, w =>
    match h.roundTrip s w with
    | (s1, .error err) => ⟨s1, .error err, [w]⟩
    | (s1, .ok resp) =>
      match h.redirect w resp with
      | none => ⟨s1, .ok resp, [w]⟩
      | some next =>
        let f := h.follow n s1 next
        ⟨f.server, f.answer, w :: f.wire⟩

/-- One call of `c.HTTPClient.Do`: the value of `c.sessionID` at that moment,
the request handed to the HTTP client, the requests that call put on the
wire, and what came back. -/
structure Attempt where
  token : String
  sent : Sent
  wire : List Sent
  answer : Except GoError Response

/-- The call `c.HTTPClient.Do(req)`: the client reads the body of the request
to its end and sends it, following redirects; the request is left with a
drained body.  Returns the server state, the request, the answer and the
requests put on the wire. -/
def HTTPClient.Do {σ : Type} (h : HTTPClient σ) (s : σ) (req : Request) :
    σ × Request × Except GoError Response × List Sent :=
  match ioutil_ReadAll req.Body with
  | .error err => (s, { req with Body := Reader.drained }, .error err, [])
  | .ok b =>
    let f := h.follow h.maxRequests s ⟨req.Method, req.URL, req.Header, b⟩
    (f.server, { req with Body := Reader.drained }, f.answer, f.wire)

/-! ## rpc_client.go -/

/-- The fields of `url.URL` that the plugin reads. -/
structure URL where
  Scheme : String
  Host : String
  Path : String
deriving DecidableEq, Repr

/-- The struct `rpcClient`; the field `HTTPClient` is passed separately. -/
structure rpcClient where
  Address : URL
  sessionID : String
deriving DecidableEq, Repr

/-- The struct `Tracker`. -/
structure Tracker where
  Announce : String
deriving DecidableEq, Repr

/-- The struct `torrent`; `PercentDone` is carried, never computed with. -/
structure torrent where
  DownloadedEver : Int
  Error : Int
  HashString : String
  Name : String
  PeersConnected : Int
  PercentDone : Float
  RateDownload : Int
  RateUpload : Int
  Status : Int
  Trackers : List Tracker
  UploadedEver : Int

/-- The struct `torrents`; an element of `[]*torrent` is a pointer, `none`
when it is nil, as the decoder leaves it for a JSON null. -/
structure torrents where
  Torrents : List (Option torrent)

/-- The local struct `arg` of `getTorrents`. -/
structure arg where
  Fields : List String
deriving DecidableEq, Repr

/-- The struct `request`; its `Arguments` always hold an `arg`. -/
structure request where
  Method : String
  Arguments : arg
deriving DecidableEq, Repr

/-- The struct `response`.  `Arguments` is an `interface{}` that
`getTorrents` fills with a pointer to `torrents`; after decoding it holds
either that pointer (`some`) or nothing (`none`, the nil interface). -/
structure response where
  Arguments : Option torrents
  Result : String

/-- The library routines the plugin calls. -/
structure Lib where
  /-- The call `json.Marshal(tReq)`. -/
  jsonMarshal : request → Except GoError Bytes
  /-- The call `json.Unmarshal(body, tResp)`: the value of `tResp` after. -/
  jsonUnmarshal : Bytes → response → Except GoError response
  /-- The error of `http.NewRequest(method, url, body)`, if it has one. -/
  newRequestError : String → String → Option GoError
  /-- The method `URL.String`. -/
  urlString : URL → String
  /-- The call `url.Parse`. -/
  urlParse : String → Except GoError URL
  /-- The method `URL.Hostname`: the host without port. -/
  urlHostname : URL → String
  /-- The call `net.SplitHostPort`. -/
  netSplitHostPort : String → Except GoError (String × String)

/-- The call `http.NewRequest(method, url, body)`: a request with no header. -/
def http_NewRequest (lib : Lib) (method url : String) (body : Reader) :
    Except GoError Request :=
  match lib.newRequestError method url with
  | some err => .error err
  | none => .ok ⟨method, url, Header.empty, body⟩

/-- What a call on the client leaves behind: its result, the client, the
server state, and the attempts made, oldest first. -/
structure Out (σ : Type) (α : Type) where
  val : α
  client : rpcClient
  server : σ
  log : List Attempt

set_option linter.unusedVariables false in
/-- The method `rpcClient.Do`.  The value is the pair of results; the request
object, which Go mutates in place, is returned with it. -/
def Do {σ : Type} (h : HTTPClient σ) (c : rpcClient) (s : σ) (req : Request)
    (retry : Bool) : Out σ (Except GoError Response × Request) :=
  let req1 : Request :=
    if c.sessionID ≠ "" then
      { req with Header := (req.Header.Del sessionHeader).Add sessionHeader c.sessionID }
    else req
  match ioutil_ReadAll req1.Body with
  | .error err => ⟨(.error err, req1), c, s, []⟩
  | .ok b =>
    let req2 : Request := { req1 with Body := bytes_NewBuffer b }
    let r := h.Do s req2
    let log1 : List Attempt :=
      [⟨c.sessionID, ⟨req2.Method, req2.URL, req2.Header, b⟩, r.2.2.2, r.2.2.1⟩]
    match r.2.2.1 with
    | .error err => ⟨(.error err, r.2.1), c, r.1, log1⟩
    | .ok resp =>
      if hr : resp.StatusCode = http_StatusConflict ∧ retry = true then
        let c1 : rpcClient := { c with sessionID := resp.Header.Get sessionHeader }
        let req3 : Request := { r.2.1 with Body := bytes_NewBuffer b }
        let d := Do h c1 r.1 req3 false
        { d with log := log1 ++ d.log }
      else ⟨(.ok resp, r.2.1), c, r.1, log1⟩
termination_by (if retry then 1 else 0)
decreasing_by simp [hr.2]

/-- The method `rpcClient.makeRequest`; the value is the error, or `tResp`
as the decoder left it. -/
def makeRequest {σ : Type} (lib : Lib) (h : HTTPClient σ) (c : rpcClient) (s : σ)
    (tReq : request) (tResp : response) : Out σ (Except GoError response) :=
  match lib.jsonMarshal tReq with
  | .error err => ⟨.error err, c, s, []⟩
  | .ok data =>
    match http_NewRequest lib "POST" (lib.urlString c.Address) (bytes_NewBuffer data) with
    | .error err => ⟨.error err, c, s, []⟩
    | .ok req =>
      let d := Do h c s req true
      match d.val.1 with
      | .error err => ⟨.error err, d.client, d.server, d.log⟩
      | .ok resp =>
        if resp.StatusCode < 200 ∨ resp.StatusCode > 299 then
          ⟨.error (.errorf "got http error %s" resp.Status), d.client, d.server, d.log⟩
        else
          match ioutil_ReadAll resp.Body with
          | .error err => ⟨.error err, d.client, d.server, d.log⟩
          | .ok body =>
            match lib.jsonUnmarshal body tResp with
            | .error err => ⟨.error err, d.client, d.server, d.log⟩
            | .ok tResp1 =>
              if tResp1.Result ≠ "success" then
                ⟨.error (.errorf "transmission: request response %q" tResp1.Result),
                  d.client, d.server, d.log⟩
              else ⟨.ok tResp1, d.client, d.server, d.log⟩

/-- The request that `getTorrents` builds. -/
def getTorrentsRequest : request :=
  ⟨"torrent-get",
   ⟨["downloadedEver", "error", "hashString", "name", "peersConnected", "percentDone",
     "rateDownload", "rateUpload", "status", "trackers", "uploadedEver"]⟩⟩

/-- The method `rpcClient.getTorrents`.  The type assertion
`r.Arguments.(*torrents)` panics when the interface holds no `*torrents`. -/
def getTorrents {σ : Type} (lib : Lib) (h : HTTPClient σ) (c : rpcClient) (s : σ) :
    Out σ (Outcome (List (Option torrent))) :=
  let tReq := getTorrentsRequest
  let r : response := ⟨some ⟨[]⟩, ""⟩
  let m := makeRequest lib h c s tReq r
  match m.val with
  | .error err => ⟨.error err, m.client, m.server, m.log⟩
  | .ok r1 =>
    match r1.Arguments with
    | some t => ⟨.ok t.Torrents, m.client, m.server, m.log⟩
    | none => ⟨.panic "interface conversion: interface is nil, not *torrents",
        m.client, m.server, m.log⟩

/-! ## transmission.go -/

/-- The function `getTorrentTracker`. -/
def getTorrentTracker (lib : Lib) (trackers : List Tracker) : String :=
  match trackers with
  | [] => "unknown"
  | first :: _ =>
    match lib.urlParse first.Announce with
    | .error _ => "parse_error"
    | .ok address => lib.urlHostname address

/-- The map literal `statuses` of `getTorrentStatus`. -/
def statuses : List (Int × String) :=
  [(0, "stopped"), (1, "check_wait"), (2, "checking"), (3, "download_wait"),
   (4, "downloading"), (5, "seed_wait"), (6, "seeding")]

/-- The function `getTorrentStatus`. -/
def getTorrentStatus (statusCode : Int) : String :=
  match statuses.lookup statusCode with
  | some status => status
  | none => "unknown"

/-- The function `splitHostPort`. -/
def splitHostPort (lib : Lib) (addr : URL) : String × String :=
  let h := addr.Host
  match lib.netSplitHostPort h with
  | .ok (host, port) => (host, port)
  | .error _ =>
    (addr.Host,
     if addr.Scheme = "http" then "80"
     else if addr.Scheme = "https" then "443"
     else "")

/-- The values of a field map: `int64`, `int` and `float64`. -/
inductive FieldValue where
  | int64 (v : Int)
  | int (v : Int)
  | float64 (v : Float)

/-- One call of `acc.AddFields(measurement, fields, tags)`; a map literal is
the list of its entries as written. -/
structure Metric where
  measurement : String
  fields : List (String × FieldValue)
  tags : List (String × String)

/-- The method `Transmission.gatherMetrics` on the client `n.client`; the
accumulator is the list of metrics added so far.  The value is the returned
error (`ok ()` for nil) and the accumulator afterwards.  The loop reads the
fields of each `tor` through its pointer: at a nil pointer it panics, and the
accumulator keeps what was added before. -/
def gatherMetrics {σ : Type} (lib : Lib) (h : HTTPClient σ) (c : rpcClient) (s : σ)
    (acc : List Metric) : Out σ (Outcome Unit × List Metric) :=
  let g := getTorrents lib h c s
  match g.val with
  | .error err => ⟨(.error err, acc), g.client, g.server, g.log⟩
  | .panic msg => ⟨(.panic msg, acc), g.client, g.server, g.log⟩
  | .ok torrents =>
    let hp := splitHostPort lib g.client.Address
    let host := hp.1
    let port := hp.2
    let run := torrents.foldl (fun (st : Outcome Unit × List Metric) ptr =>
      match st.1, ptr with
      | .ok _, some tor =>
        let fields : List (String × FieldValue) :=
          [("downloaded", .int64 tor.DownloadedEver),
           ("error", .int tor.Error),
           ("peers_connected", .int tor.PeersConnected),
           ("rate_download", .int tor.RateDownload),
           ("rate_upload", .int tor.RateUpload),
           ("uploaded", .int64 tor.UploadedEver),
           ("percent_done", .float64 tor.PercentDone)]
        let tags : List (String × String) :=
          [("hash", tor.HashString),
           ("host", host),
           ("name", tor.Name),
           ("port", port),
           ("status", getTorrentStatus tor.Status),
           ("tracker", getTorrentTracker lib tor.Trackers)]
        (.ok (), st.2 ++ [⟨"transmission", fields, tags⟩])
      | .ok _, none => (.panic "invalid memory address or nil pointer dereference", st.2)
      | _, _ => st) (.ok (), acc)
    ⟨run, g.client, g.server, g.log⟩

/-- A sequence of calls of `Do` on one client against one server: each call
starts from the client and the server state the call before it left. -/
def runCalls {σ : Type} (h : HTTPClient σ) (c : rpcClient) (s : σ) :
    List (Request × Bool) → Out σ Unit
  | [] => ⟨(), c, s, []⟩
  | (req, retry) :: rest =>
    let d := Do h c s req retry
    let r := runCalls h d.client d.server rest
    { r with log := d.log ++ r.log }

/-! ## Concrete inputs

A server that behaves like the one of `TestTransmissionGeneratesMetrics`, a
server that answers every request with a 409 response, and library routines
that are defined on the few values the examples use. -/

/-- A header map with exactly the session header, holding `vals`. -/
def sessionOnly (vals : List String) : Header :=
  ⟨fun k => if k = sessionHeader then vals else []⟩

/-- The 409 response of the example servers. -/
def conflictResponse (vals : List String) : Response :=
  ⟨409, "409 Conflict", sessionOnly vals, ⟨[], none⟩⟩

/-- The 200 response of the example servers. -/
def okResponse (body : Bytes) : Response :=
  ⟨200, "200 OK", Header.empty, ⟨body, none⟩⟩

/-- The torrent of the test's response. -/
def sampleTorrent : torrent :=
  { DownloadedEver := 1000, Error := 0, HashString := "000000", Name := "Macron Super Star",
    PeersConnected := 789, PercentDone := 0.75, RateDownload := 2000, RateUpload := 4000,
    Status := 6, Trackers := [⟨"http://tracker.hello.cc:2710/abc/announce"⟩],
    UploadedEver := 222 }

/-- Library routines for the examples: the body `[7]` decodes to a success
with the sample torrent, `[8]` to the result `"busy"`, `[9]` to a success
whose torrent list is `[null]`; one URL parses. -/
def sampleLib : Lib where
  jsonMarshal := fun _ => .ok [1, 2, 3]
  jsonUnmarshal := fun body tResp =>
    if body = [7] then .ok ⟨some ⟨[some sampleTorrent]⟩, "success"⟩
    else if body = [9] then .ok ⟨some ⟨[none]⟩, "success"⟩
    else if body = [8] then .ok ⟨tResp.Arguments, "busy"⟩
    else .error (.lib "invalid character")
  newRequestError := fun _ _ => none
  urlString := fun u => u.Scheme ++ "://" ++ u.Host ++ u.Path
  urlParse := fun raw =>
    if raw = "http://tracker.hello.cc:2710/abc/announce" then
      .ok ⟨"http", "tracker.hello.cc:2710", "/abc/announce"⟩
    else .error (.lib "parse error")
  urlHostname := fun u => if u.Host = "tracker.hello.cc:2710" then "tracker.hello.cc" else u.Host
  netSplitHostPort := fun hp =>
    if hp = "127.0.0.1:9091" then .ok ("127.0.0.1", "9091")
    else .error (.lib "missing port in address")

/-- The redirect policy of the examples, after the default of `net/http` for a
request whose body can be read again: a response without `Location` is
returned; 301, 302 and 303 are followed with a `GET` or `HEAD` without body;
307 and 308 are followed with the same method and body; the headers go along. -/
def followRedirects (w : Sent) (resp : Response) : Option Sent :=
  if resp.Header.Get "Location" = "" then none
  else if resp.StatusCode = 301 ∨ resp.StatusCode = 302 ∨ resp.StatusCode = 303 then
    some ⟨if w.Method = "GET" ∨ w.Method = "HEAD" then w.Method else "GET",
      resp.Header.Get "Location", w.Header, []⟩
  else if resp.StatusCode = 307 ∨ resp.StatusCode = 308 then
    some ⟨w.Method, resp.Header.Get "Location", w.Header, w.Body⟩
  else none

/-- A 307 response that points to `location`. -/
def redirectResponse (location : String) : Response :=
  ⟨307, "307 Temporary Redirect", ⟨fun k => if k = "Location" then [location] else []⟩,
    ⟨[], none⟩⟩

/-- A server that wants the session id `want`: any request without it gets a
409 response that carries it, a request with it gets a 200 response with the
body `body`. -/
def challengeServer (want : String) (body : Bytes) : HTTPClient Unit where
  roundTrip := fun _ w =>
    if w.Header.Get sessionHeader ≠ want then
      ((), .ok (conflictResponse [want]))
    else ((), .ok (okResponse body))
  redirect := followRedirects
  maxRequests := 10

/-- A server that answers the first request with a 409 response whose session
header holds `vals`, and every later request with a 200 response with the body
`body`; the state counts the requests. -/
def onceServer (vals : List String) (body : Bytes) : HTTPClient Nat where
  roundTrip := fun n _ =>
    if n = 0 then (n + 1, .ok (conflictResponse vals))
    else (n + 1, .ok (okResponse body))
  redirect := followRedirects
  maxRequests := 10

/-- A server that answers every request with a 409 response whose session
header holds `vals`. -/
def conflictServer (vals : List String) : HTTPClient Unit where
  roundTrip := fun _ _ => ((), .ok (conflictResponse vals))
  redirect := followRedirects
  maxRequests := 10

/-- A server that answers the first request with a 409 response that carries
the session id `tok`, the next two requests with a 307 response that points
to `location`, and every later request with a 200 response with the body
`body`; the state counts the requests. -/
def redirectServer (tok location : String) (body : Bytes) : HTTPClient Nat where
  roundTrip := fun n _ =>
    if n = 0 then (n + 1, .ok (conflictResponse [tok]))
    else if n ≤ 2 then (n + 1, .ok (redirectResponse location))
    else (n + 1, .ok (okResponse body))
  redirect := followRedirects
  maxRequests := 10

/-- The address of the examples. -/
def sampleAddress : URL := ⟨"http", "127.0.0.1:9091", "/transmission/rpc"⟩

/-- A request, as `http.NewRequest` builds it from a byte reader, that already
carries two session header values. -/
def staleRequest : Request :=
  ⟨"POST", "http://127.0.0.1:9091/transmission/rpc", sessionOnly ["stale", "older"],
    bytes_NewBuffer [4, 5, 6]⟩

/-- An attempt whose one request went on the wire as it was handed over. -/
def single (tok : String) (w : Sent) (answer : Except GoError Response) : Attempt :=
  ⟨tok, w, [w], answer⟩

/-! ## Vocabulary of the statements -/

/-- The header a request leaves with when the client holds `tok`. -/
def stamp (tok : String) (hd : Header) : Header :=
  if tok ≠ "" then (hd.Del sessionHeader).Add sessionHeader tok else hd

/-- The request that `makeRequest` hands to `Do`. -/
def rpcRequest (lib : Lib) (c : rpcClient) (data : Bytes) : Request :=
  ⟨"POST", lib.urlString c.Address, Header.empty, bytes_NewBuffer data⟩

/-- The checks that `makeRequest` applies to what `Do` returned. -/
def validate (lib : Lib) (tResp : response) (r : Except GoError Response) :
    Except GoError response :=
  match r with
  | .error err => .error err
  | .ok resp =>
    if resp.StatusCode < 200 ∨ resp.StatusCode > 299 then
      .error (.errorf "got http error %s" resp.Status)
    else
      match ioutil_ReadAll resp.Body with
      | .error err => .error err
      | .ok body =>
        match lib.jsonUnmarshal body tResp with
        | .error err => .error err
        | .ok tResp1 =>
          if tResp1.Result ≠ "success" then
            .error (.errorf "transmission: request response %q" tResp1.Result)
          else .ok tResp1

/-- The number of HTTP requests that the attempts of `log` put on the wire. -/
def wireCount (log : List Attempt) : Nat :=
  (log.map (fun a => a.wire.length)).sum

/-- The token `t` is the session id of a 409 response recorded in `log`. -/
def challengeIn (log : List Attempt) (t : String) : Prop :=
  ∃ a ∈ log, ∃ r, a.answer = .ok r ∧ r.StatusCode = 409 ∧ r.Header.Get sessionHeader = t

/-! ## Facts about the embedding -/

theorem ReadAll_NewBuffer (b : Bytes) : ioutil_ReadAll (bytes_NewBuffer b) = .ok b := rfl

theorem Do_false_eq {σ : Type} (h : HTTPClient σ) (c : rpcClient) (s : σ) (req : Request) :
    Do h c s req false =
      match ioutil_ReadAll req.Body with
      | .error err =>
        ⟨(.error err, ⟨req.Method, req.URL, stamp c.sessionID req.Header, req.Body⟩), c, s, []⟩
      | .ok b =>
        let w : Sent := ⟨req.Method, req.URL, stamp c.sessionID req.Header, b⟩
        let f := h.follow h.maxRequests s w
        ⟨(f.answer,
            ⟨req.Method, req.URL, stamp c.sessionID req.Header, Reader.drained⟩),
          c, f.server, [⟨c.sessionID, w, f.wire, f.answer⟩]⟩ := by
  rw [Do]
  by_cases hc : c.sessionID = ""
  · simp only [hc, stamp, ne_eq, not_true_eq_false, if_false]
    cases hb : ioutil_ReadAll req.Body with
    | error err => simp
    | ok b =>
      simp only [HTTPClient.Do, ReadAll_NewBuffer]
      cases hr : (h.follow h.maxRequests s ⟨req.Method, req.URL, req.Header, b⟩).answer <;> simp [hr]
  · simp only [hc, stamp, ne_eq, not_false_eq_true, if_true]
    cases hb : ioutil_ReadAll req.Body with
    | error err => simp
    | ok b =>
      simp only [HTTPClient.Do, ReadAll_NewBuffer]
      cases hr : (h.follow h.maxRequests s ⟨req.Method, req.URL,
        (req.Header.Del sessionHeader).Add sessionHeader c.sessionID, b⟩).answer <;> simp [hr]

theorem Do_true_eq {σ : Type} (h : HTTPClient σ) (c : rpcClient) (s : σ) (req : Request) :
    Do h c s req true =
      match ioutil_ReadAll req.Body with
      | .error err =>
        ⟨(.error err, ⟨req.Method, req.URL, stamp c.sessionID req.Header, req.Body⟩), c, s, []⟩
      | .ok b =>
        let hd1 := stamp c.sessionID req.Header
        let w1 : Sent := ⟨req.Method, req.URL, hd1, b⟩
        let f1 := h.follow h.maxRequests s w1
        let a1 : Attempt := ⟨c.sessionID, w1, f1.wire, f1.answer⟩
        match f1.answer with
        | .error err =>
          ⟨(.error err, ⟨req.Method, req.URL, hd1, Reader.drained⟩), c, f1.server, [a1]⟩
        | .ok resp =>
          if resp.StatusCode = http_StatusConflict then
            let tok := resp.Header.Get sessionHeader
            let hd2 := stamp tok hd1
            let w2 : Sent := ⟨req.Method, req.URL, hd2, b⟩
            let f2 := h.follow h.maxRequests f1.server w2
            ⟨(f2.answer, ⟨req.Method, req.URL, hd2, Reader.drained⟩), ⟨c.Address, tok⟩,
              f2.server, [a1, ⟨tok, w2, f2.wire, f2.answer⟩]⟩
          else
            ⟨(.ok resp, ⟨req.Method, req.URL, hd1, Reader.drained⟩), c, f1.server, [a1]⟩ := by
  rw [Do]
  by_cases hc : c.sessionID = ""
  · simp only [hc, stamp, ne_eq, not_true_eq_false, if_false]
    cases hb : ioutil_ReadAll req.Body with
    | error err => simp
    | ok b =>
      simp only [HTTPClient.Do, ReadAll_NewBuffer]
      cases hr : (h.follow h.maxRequests s ⟨req.Method, req.URL, req.Header, b⟩).answer with
      | error err => simp [hr]
      | ok resp =>
        by_cases h9 : resp.StatusCode = http_StatusConflict
        · simp [hr, h9, Do_false_eq, ReadAll_NewBuffer, stamp]
        · simp [hr, h9]
  · simp only [hc, stamp, ne_eq, not_false_eq_true, if_true]
    cases hb : ioutil_ReadAll req.Body with
    | error err => simp
    | ok b =>
      simp only [HTTPClient.Do, ReadAll_NewBuffer]
      cases hr : (h.follow h.maxRequests s ⟨req.Method, req.URL,
        (req.Header.Del sessionHeader).Add sessionHeader c.sessionID, b⟩).answer with
      | error err => simp [hr]
      | ok resp =>
        by_cases h9 : resp.StatusCode = http_StatusConflict
        · simp [hr, h9, Do_false_eq, ReadAll_NewBuffer, stamp]
        · simp [hr, h9]

/-- The result of `Do` is what the last attempt got back. -/
theorem Do_val_eq_last {σ : Type} (h : HTTPClient σ) (c : rpcClient) (s : σ) (req : Request)
    (retry : Bool) (a : Attempt) (ha : (Do h c s req retry).log.getLast? = some a) :
    (Do h c s req retry).val.1 = a.answer := by
  cases retry with
  | false =>
    rw [Do_false_eq] at ha ⊢
    cases hb : ioutil_ReadAll req.Body with
    | error err => simp [hb] at ha
    | ok b =>
      simp only [hb, List.getLast?_singleton, Option.some.injEq] at ha ⊢
      rw [← ha]
  | true =>
    rw [Do_true_eq] at ha ⊢
    cases hb : ioutil_ReadAll req.Body with
    | error err => simp [hb] at ha
    | ok b =>
      simp only [hb] at ha ⊢
      cases hr : (h.follow h.maxRequests s
        ⟨req.Method, req.URL, stamp c.sessionID req.Header, b⟩).answer with
      | error err =>
        simp only [hr, List.getLast?_singleton, Option.some.injEq] at ha ⊢
        rw [← ha]
      | ok resp =>
        by_cases h9 : resp.StatusCode = http_StatusConflict
        · simp [hr, h9] at ha ⊢
          rw [← ha]
        · simp [hr, h9] at ha ⊢
          rw [← ha]

theorem stamp_values (tok : String) (hd : Header) (htok : tok ≠ "") :
    (stamp tok hd).values sessionHeader = [tok] := by
  simp [stamp, htok, Header.Add, Header.Del]

theorem stamp_Get (tok : String) (hd : Header) (htok : tok ≠ "") :
    (stamp tok hd).Get sessionHeader = tok := by
  simp [Header.Get, stamp_values tok hd htok]

theorem Do_log_length_false {σ : Type} (h : HTTPClient σ) (c : rpcClient) (s : σ)
    (req : Request) : (Do h c s req false).log.length ≤ 1 := by
  rw [Do_false_eq]
  cases hb : ioutil_ReadAll req.Body <;> simp

theorem Do_log_length_true {σ : Type} (h : HTTPClient σ) (c : rpcClient) (s : σ)
    (req : Request) : (Do h c s req true).log.length ≤ 2 := by
  rw [Do_true_eq]
  cases hb : ioutil_ReadAll req.Body with
  | error err => simp
  | ok b =>
    simp only []
    split
    · simp
    · split <;> simp

/-- The shape of a call of `Do` that may not retry: nothing is sent, or one
request is sent, stamped with the token the client holds. -/
theorem Do_false_shape {σ : Type} (h : HTTPClient σ) (c : rpcClient) (s : σ) (req : Request) :
    ((Do h c s req false).log = [] ∧ (Do h c s req false).client = c) ∨
    (∃ b a1, ioutil_ReadAll req.Body = .ok b ∧
      (Do h c s req false).log = [a1] ∧
      (Do h c s req false).client = c ∧
      (Do h c s req false).val.1 = a1.answer ∧
      a1.token = c.sessionID ∧
      a1.sent = ⟨req.Method, req.URL, stamp c.sessionID req.Header, b⟩) := by
  rw [Do_false_eq]
  cases hb : ioutil_ReadAll req.Body with
  | error err => exact Or.inl ⟨rfl, rfl⟩
  | ok b => exact Or.inr ⟨b, _, rfl, rfl, rfl, rfl, rfl, rfl⟩

/-- The shape of a call of `Do` that may retry: nothing is sent; or one
request is sent whose answer is not a 409 response; or the first answer is a
409 response and a second request is sent, with the same method, URL and body,
stamped with the token of that response, which the client then holds. -/
theorem Do_true_shape {σ : Type} (h : HTTPClient σ) (c : rpcClient) (s : σ) (req : Request) :
    ((Do h c s req true).log = [] ∧ (Do h c s req true).client = c) ∨
    (∃ b a1, ioutil_ReadAll req.Body = .ok b ∧
      (Do h c s req true).log = [a1] ∧
      (Do h c s req true).client = c ∧
      (Do h c s req true).val.1 = a1.answer ∧
      a1.token = c.sessionID ∧
      a1.sent = ⟨req.Method, req.URL, stamp c.sessionID req.Header, b⟩ ∧
      ∀ r, a1.answer = .ok r → r.StatusCode ≠ http_StatusConflict) ∨
    (∃ b a1 a2 r1, ioutil_ReadAll req.Body = .ok b ∧
      (Do h c s req true).log = [a1, a2] ∧
      a1.answer = .ok r1 ∧ r1.StatusCode = http_StatusConflict ∧
      (Do h c s req true).client = ⟨c.Address, r1.Header.Get sessionHeader⟩ ∧
      (Do h c s req true).val.1 = a2.answer ∧
      a1.token = c.sessionID ∧
      a1.sent = ⟨req.Method, req.URL, stamp c.sessionID req.Header, b⟩ ∧
      a2.token = r1.Header.Get sessionHeader ∧
      a2.sent = ⟨req.Method, req.URL,
        stamp (r1.Header.Get sessionHeader) (stamp c.sessionID req.Header), b⟩) := by
  rw [Do_true_eq]
  cases hb : ioutil_ReadAll req.Body with
  | error err => exact Or.inl ⟨rfl, rfl⟩
  | ok b =>
    simp only []
    cases hr : (h.follow h.maxRequests s
        ⟨req.Method, req.URL, stamp c.sessionID req.Header, b⟩).answer with
    | error err =>
      dsimp only
      refine Or.inr (Or.inl ⟨b, _, rfl, rfl, rfl, rfl, rfl, rfl, ?_⟩)
      intro r hra
      cases hra
    | ok resp =>
      by_cases h9 : resp.StatusCode = http_StatusConflict
      · dsimp only
        rw [if_pos h9]
        exact Or.inr (Or.inr ⟨b, ⟨c.sessionID, _, _, .ok resp⟩,
          ⟨resp.Header.Get sessionHeader,
            ⟨req.Method, req.URL,
              stamp (resp.Header.Get sessionHeader) (stamp c.sessionID req.Header), b⟩,
            (h.follow h.maxRequests
              (h.follow h.maxRequests s
                ⟨req.Method, req.URL, stamp c.sessionID req.Header, b⟩).server
              ⟨req.Method, req.URL,
                stamp (resp.Header.Get sessionHeader) (stamp c.sessionID req.Header), b⟩).wire,
            (h.follow h.maxRequests
              (h.follow h.maxRequests s
                ⟨req.Method, req.URL, stamp c.sessionID req.Header, b⟩).server
              ⟨req.Method, req.URL,
                stamp (resp.Header.Get sessionHeader) (stamp c.sessionID req.Header), b⟩).answer⟩,
          resp, rfl, rfl, rfl, h9, rfl, rfl, rfl, rfl, rfl, rfl⟩)
      · dsimp only
        rw [if_neg h9]
        refine Or.inr (Or.inl ⟨b, ⟨c.sessionID, _, _, .ok resp⟩, rfl, rfl, rfl, rfl, rfl, rfl, ?_⟩)
        intro r hra
        cases hra
        exact h9

theorem makeRequest_built {σ : Type} (lib : Lib) (h : HTTPClient σ) (c : rpcClient) (s : σ)
    (tReq : request) (tResp : response) (data : Bytes)
    (hm : lib.jsonMarshal tReq = .ok data)
    (hn : lib.newRequestError "POST" (lib.urlString c.Address) = none) :
    makeRequest lib h c s tReq tResp =
      ⟨validate lib tResp (Do h c s (rpcRequest lib c data) true).val.1,
        (Do h c s (rpcRequest lib c data) true).client,
        (Do h c s (rpcRequest lib c data) true).server,
        (Do h c s (rpcRequest lib c data) true).log⟩ := by
  simp only [makeRequest, hm, http_NewRequest, hn, rpcRequest, validate]
  cases (Do h c s ⟨"POST", lib.urlString c.Address, Header.empty, bytes_NewBuffer data⟩ true).val.1 with
  | error err => rfl
  | ok resp =>
    simp only []
    split
    · rfl
    · cases ioutil_ReadAll resp.Body with
      | error err => rfl
      | ok body =>
        simp only []
        cases lib.jsonUnmarshal body tResp with
        | error err => rfl
        | ok t =>
          simp only []
          split <;> rfl

theorem makeRequest_not_built {σ : Type} (lib : Lib) (h : HTTPClient σ) (c : rpcClient) (s : σ)
    (tReq : request) (tResp : response)
    (hm : (∃ err, lib.jsonMarshal tReq = .error err) ∨
      (∃ err, lib.newRequestError "POST" (lib.urlString c.Address) = some err)) :
    (makeRequest lib h c s tReq tResp).log = [] := by
  rcases hm with ⟨err, hm⟩ | ⟨err, hn⟩
  · simp [makeRequest, hm]
  · cases hm : lib.jsonMarshal tReq with
    | error e => simp [makeRequest, hm]
    | ok data => simp [makeRequest, hm, http_NewRequest, hn]

/-- Either `makeRequest` sends nothing, or it is `Do` on the request it built
followed by the checks on the response. -/
theorem makeRequest_cases {σ : Type} (lib : Lib) (h : HTTPClient σ) (c : rpcClient) (s : σ)
    (tReq : request) (tResp : response) :
    (makeRequest lib h c s tReq tResp).log = [] ∨
    ∃ data, makeRequest lib h c s tReq tResp =
      ⟨validate lib tResp (Do h c s (rpcRequest lib c data) true).val.1,
        (Do h c s (rpcRequest lib c data) true).client,
        (Do h c s (rpcRequest lib c data) true).server,
        (Do h c s (rpcRequest lib c data) true).log⟩ := by
  cases hm : lib.jsonMarshal tReq with
  | error e => exact Or.inl (makeRequest_not_built lib h c s tReq tResp (Or.inl ⟨e, hm⟩))
  | ok data =>
    cases hn : lib.newRequestError "POST" (lib.urlString c.Address) with
    | some e => exact Or.inl (makeRequest_not_built lib h c s tReq tResp (Or.inr ⟨e, hn⟩))
    | none => exact Or.inr ⟨data, makeRequest_built lib h c s tReq tResp data hm hn⟩

/-- The state that `getTorrents` leaves is the state `makeRequest` leaves. -/
theorem getTorrents_state {σ : Type} (lib : Lib) (h : HTTPClient σ) (c : rpcClient) (s : σ) :
    (getTorrents lib h c s).log = (makeRequest lib h c s getTorrentsRequest ⟨some ⟨[]⟩, ""⟩).log ∧
    (getTorrents lib h c s).client =
      (makeRequest lib h c s getTorrentsRequest ⟨some ⟨[]⟩, ""⟩).client ∧
    (getTorrents lib h c s).val =
      (match (makeRequest lib h c s getTorrentsRequest ⟨some ⟨[]⟩, ""⟩).val with
       | .error err => .error err
       | .ok r1 =>
         match r1.Arguments with
         | some t => .ok t.Torrents
         | none => .panic "interface conversion: interface is nil, not *torrents") := by
  simp only [getTorrents]
  cases (makeRequest lib h c s getTorrentsRequest ⟨some ⟨[]⟩, ""⟩).val with
  | error err => simp
  | ok r1 => rcases r1 with ⟨_ | t, res⟩ <;> simp

/-! ## The claims -/

theorem follow_wire_length {σ : Type} (h : HTTPClient σ) (n : Nat) (s : σ) (w : Sent) :
    (h.follow n s w).wire.length ≤ n := by
  induction n generalizing s w with
  | zero => simp [HTTPClient.follow]
  | succ n ih =>
    rw [HTTPClient.follow]
    rcases hrt : h.roundTrip s w with ⟨s1, err | resp⟩
    · simp
    · cases hre : h.redirect w resp with
      | none => simp [hre]
      | some next =>
        have := ih s1 next
        simp only [hre, List.length_cons]
        omega

theorem follow_wire_length_plain {σ : Type} (h : HTTPClient σ)
    (hplain : ∀ s w resp, (h.roundTrip s w).2 = .ok resp → h.redirect w resp = none)
    (n : Nat) (s : σ) (w : Sent) : (h.follow n s w).wire.length ≤ 1 := by
  cases n with
  | zero => simp [HTTPClient.follow]
  | succ n =>
    rw [HTTPClient.follow]
    rcases hrt : h.roundTrip s w with ⟨s1, err | resp⟩
    · simp
    · have hre := hplain s w resp (by rw [hrt])
      simp [hre]

/-- The requests an attempt put on the wire are those of one call of the
library client on the request handed over. -/
theorem Do_wire {σ : Type} (h : HTTPClient σ) (c : rpcClient) (s : σ) (req : Request)
    (retry : Bool) :
    ∀ a ∈ (Do h c s req retry).log,
      ∃ s1, a.wire = (h.follow h.maxRequests s1 a.sent).wire := by
  cases retry with
  | false =>
    rw [Do_false_eq]
    cases hb : ioutil_ReadAll req.Body with
    | error err => simp
    | ok b =>
      intro a ha
      simp only [List.mem_singleton] at ha
      subst ha
      exact ⟨s, rfl⟩
  | true =>
    rw [Do_true_eq]
    cases hb : ioutil_ReadAll req.Body with
    | error err => simp
    | ok b =>
      dsimp only
      cases hr : (h.follow h.maxRequests s
        ⟨req.Method, req.URL, stamp c.sessionID req.Header, b⟩).answer with
      | error err =>
        intro a ha
        simp only [List.mem_singleton] at ha
        subst ha
        exact ⟨s, rfl⟩
      | ok resp =>
        by_cases h9 : resp.StatusCode = http_StatusConflict
        · dsimp only
          rw [if_pos h9]
          intro a ha
          simp only [List.mem_cons, List.mem_singleton, List.not_mem_nil, or_false] at ha
          rcases ha with ha | ha
          · subst ha
            exact ⟨s, rfl⟩
          · subst ha
            exact ⟨_, rfl⟩
        · dsimp only
          rw [if_neg h9]
          intro a ha
          simp only [List.mem_singleton] at ha
          subst ha
          exact ⟨s, rfl⟩

theorem wireCount_le (log : List Attempt) (k : Nat) (hk : ∀ a ∈ log, a.wire.length ≤ k) :
    wireCount log ≤ log.length * k := by
  induction log with
  | nil => simp [wireCount]
  | cons a rest ih =>
    have h1 := hk a (List.mem_cons_self _ _)
    have h2 := ih (fun x hx => hk x (List.mem_cons_of_mem _ hx))
    simp only [wireCount, List.map_cons, List.sum_cons, List.length_cons] at h2 ⊢
    rw [Nat.succ_mul]
    omega

theorem Do_wireCount {σ : Type} (h : HTTPClient σ) (c : rpcClient) (s : σ) (req : Request)
    (k : Nat) (hk : ∀ s1 w, (h.follow h.maxRequests s1 w).wire.length ≤ k) :
    wireCount (Do h c s req true).log ≤ 2 * k ∧ wireCount (Do h c s req false).log ≤ k := by
  have hw : ∀ retry, ∀ a ∈ (Do h c s req retry).log, a.wire.length ≤ k := by
    intro retry a ha
    obtain ⟨s1, hs1⟩ := Do_wire h c s req retry a ha
    rw [hs1]
    exact hk s1 a.sent
  have ht := wireCount_le _ k (hw true)
  have hf := wireCount_le _ k (hw false)
  have lt := Nat.mul_le_mul_right k (Do_log_length_true h c s req)
  have lf := Nat.mul_le_mul_right k (Do_log_length_false h c s req)
  constructor
  · omega
  · omega

theorem getTorrents_wireCount {σ : Type} (lib : Lib) (h : HTTPClient σ) (c : rpcClient) (s : σ)
    (k : Nat) (hk : ∀ s1 w, (h.follow h.maxRequests s1 w).wire.length ≤ k) :
    wireCount (getTorrents lib h c s).log ≤ 2 * k := by
  rw [(getTorrents_state lib h c s).1]
  rcases makeRequest_cases lib h c s getTorrentsRequest ⟨some ⟨[]⟩, ""⟩ with h0 | ⟨data, hd⟩
  · simp [h0, wireCount]
  · rw [hd]
    exact (Do_wireCount h c s _ k hk).1

/-- Claim C2 (amended): for every server and every client state, one call of
`Do` with retry allowed makes at most two calls of the HTTP client, one call
with retry disallowed at most one, one call of `getTorrents` at most two, and
no third call is made.  Each call of the HTTP client sends as many requests as
its redirect policy follows, at most the limit of the policy: `getTorrents`
and `Do` with retry send at most twice that limit, `Do` without retry at most
that limit.  When the policy follows no response of the server, these are at
most two requests and at most one. -/
theorem at_most_two_attempts {σ : Type} (lib : Lib) (h : HTTPClient σ) (c : rpcClient) (s : σ)
    (req : Request) :
    (Do h c s req true).log.length ≤ 2 ∧
    (Do h c s req false).log.length ≤ 1 ∧
    (getTorrents lib h c s).log.length ≤ 2 ∧
    wireCount (Do h c s req true).log ≤ 2 * h.maxRequests ∧
    wireCount (Do h c s req false).log ≤ h.maxRequests ∧
    wireCount (getTorrents lib h c s).log ≤ 2 * h.maxRequests ∧
    ((∀ s1 w resp, (h.roundTrip s1 w).2 = .ok resp → h.redirect w resp = none) →
      wireCount (Do h c s req true).log ≤ 2 ∧
      wireCount (Do h c s req false).log ≤ 1 ∧
      wireCount (getTorrents lib h c s).log ≤ 2) := by
  have hmax := follow_wire_length h h.maxRequests
  refine ⟨Do_log_length_true h c s req, Do_log_length_false h c s req, ?_,
    (Do_wireCount h c s req _ hmax).1, (Do_wireCount h c s req _ hmax).2,
    getTorrents_wireCount lib h c s _ hmax, ?_⟩
  · rw [(getTorrents_state lib h c s).1]
    rcases makeRequest_cases lib h c s getTorrentsRequest ⟨some ⟨[]⟩, ""⟩ with h0 | ⟨data, hd⟩
    · simp [h0]
    · rw [hd]
      exact Do_log_length_true h c s _
  · intro hplain
    have hone := follow_wire_length_plain h hplain h.maxRequests
    exact ⟨(Do_wireCount h c s req 1 hone).1, (Do_wireCount h c s req 1 hone).2,
      getTorrents_wireCount lib h c s 1 hone⟩

/-- The server of the test sends nothing that the redirect policy follows. -/
theorem challengeServer_plain (want : String) (body : Bytes) :
    ∀ s1 w resp, ((challengeServer want body).roundTrip s1 w).2 = .ok resp →
      (challengeServer want body).redirect w resp = none := by
  intro s1 w resp hr
  simp only [challengeServer] at hr ⊢
  split at hr
  · simp only [Except.ok.injEq] at hr
    subst hr
    simp [followRedirects, conflictResponse, Header.Get, sessionOnly, sessionHeader]
  · simp only [Except.ok.injEq] at hr
    subst hr
    simp [followRedirects, okResponse, Header.Get, Header.empty]

theorem at_most_two_attempts_witness :
    wireCount (Do (challengeServer "abc123" [7]) ⟨sampleAddress, "old"⟩ () staleRequest
      true).log ≤ 2 ∧
    wireCount (Do (challengeServer "abc123" [7]) ⟨sampleAddress, "old"⟩ () staleRequest
      false).log ≤ 1 ∧
    wireCount (getTorrents sampleLib (challengeServer "abc123" [7])
      ⟨sampleAddress, "old"⟩ ()).log ≤ 2 :=
  (at_most_two_attempts sampleLib (challengeServer "abc123" [7]) ⟨sampleAddress, "old"⟩ ()
    staleRequest).2.2.2.2.2.2 (challengeServer_plain "abc123" [7])

/-- Claim C2 fails as stated: against a server that answers the retry with two
307 responses before the 200 response, one call of `getTorrents` makes two
calls of the HTTP client and succeeds, with four requests on the wire; and one
call of `Do` without retry puts three requests on the wire. -/
theorem redirect_counterexample :
    (getTorrents sampleLib (redirectServer "abc123" "http://127.0.0.1:9091/rpc" [7])
      ⟨sampleAddress, ""⟩ 0).log.length = 2 ∧
    wireCount (getTorrents sampleLib (redirectServer "abc123" "http://127.0.0.1:9091/rpc" [7])
      ⟨sampleAddress, ""⟩ 0).log = 4 ∧
    (getTorrents sampleLib (redirectServer "abc123" "http://127.0.0.1:9091/rpc" [7])
      ⟨sampleAddress, ""⟩ 0).val = .ok [some sampleTorrent] ∧
    wireCount (Do (redirectServer "abc123" "http://127.0.0.1:9091/rpc" [7])
      ⟨sampleAddress, "abc123"⟩ 1 staleRequest false).log = 3 := by
  refine ⟨?_, ?_, ?_, ?_⟩
  · simp [getTorrents, makeRequest, http_NewRequest, sampleLib, Do_true_eq, ReadAll_NewBuffer,
      HTTPClient.follow, followRedirects, redirectServer, redirectResponse, stamp, Header.Get,
      Header.Add, Header.Del, Header.empty, sessionOnly, sessionHeader, http_StatusConflict,
      conflictResponse, okResponse, ioutil_ReadAll, bytes_NewBuffer, getTorrentsRequest]
  · simp [wireCount, getTorrents, makeRequest, http_NewRequest, sampleLib, Do_true_eq,
      ReadAll_NewBuffer, HTTPClient.follow, followRedirects, redirectServer, redirectResponse,
      stamp, Header.Get, Header.Add, Header.Del, Header.empty, sessionOnly, sessionHeader,
      http_StatusConflict, conflictResponse, okResponse, ioutil_ReadAll, bytes_NewBuffer,
      getTorrentsRequest]
  · simp [getTorrents, makeRequest, http_NewRequest, sampleLib, Do_true_eq, ReadAll_NewBuffer,
      HTTPClient.follow, followRedirects, redirectServer, redirectResponse, stamp, Header.Get,
      Header.Add, Header.Del, Header.empty, sessionOnly, sessionHeader, http_StatusConflict,
      conflictResponse, okResponse, ioutil_ReadAll, bytes_NewBuffer, getTorrentsRequest]
  · simp [wireCount, Do_false_eq, staleRequest, ReadAll_NewBuffer, HTTPClient.follow,
      followRedirects, redirectServer, redirectResponse, stamp, Header.Get, Header.Add,
      Header.Del, sessionOnly, sessionHeader, conflictResponse, okResponse]

/-- Claim C3: whenever `Do` with retry allowed makes a second attempt, the body
sent on the second attempt is the body sent on the first, and both are the
bytes of the body of the request. -/
theorem replay_body {σ : Type} (h : HTTPClient σ) (c : rpcClient) (s : σ) (req : Request)
    (a1 a2 : Attempt) (hlog : (Do h c s req true).log = [a1, a2]) :
    ioutil_ReadAll req.Body = .ok a1.sent.Body ∧ a2.sent.Body = a1.sent.Body := by
  rcases Do_true_shape h c s req with ⟨h0, _⟩ | ⟨b, b1, _, h1, _⟩ |
    ⟨b, b1, b2, r1, hb, h2, _, _, _, _, _, hs1, _, hs2⟩
  · rw [h0] at hlog
    cases hlog
  · rw [h1] at hlog
    cases hlog
  · rw [h2] at hlog
    cases hlog
    rw [hs1, hs2]
    exact ⟨hb, rfl⟩

/-- The run used by several examples: a client holding the token `"old"`
sends a request that carries stale header values to a server that wants
`"abc123"`; two attempts are made. -/
theorem staleRun_log :
    (Do (challengeServer "abc123" [7]) ⟨sampleAddress, "old"⟩ () staleRequest true).log =
      [(single "old" ⟨"POST", "http://127.0.0.1:9091/transmission/rpc",
          stamp "old" (sessionOnly ["stale", "older"]), [4, 5, 6]⟩
            (.ok (conflictResponse ["abc123"]))),
       (single "abc123" ⟨"POST", "http://127.0.0.1:9091/transmission/rpc",
          stamp "abc123" (stamp "old" (sessionOnly ["stale", "older"])), [4, 5, 6]⟩
            (.ok (okResponse [7])))] := by
  simp [Do_true_eq, staleRequest, ReadAll_NewBuffer,
    HTTPClient.follow, followRedirects, single, challengeServer, stamp, Header.Get,
    Header.Add, Header.Del, sessionOnly, sessionHeader, http_StatusConflict, conflictResponse,
    okResponse]

theorem replay_body_witness :
    ∃ a1 a2,
      (Do (challengeServer "abc123" [7]) ⟨sampleAddress, "old"⟩ () staleRequest true).log
        = [a1, a2] ∧
      ioutil_ReadAll staleRequest.Body = .ok [4, 5, 6] ∧
      a1.sent.Body = [4, 5, 6] ∧ a2.sent.Body = [4, 5, 6] :=
  ⟨_, _, staleRun_log, rfl, rfl, (replay_body _ _ _ _ _ _ staleRun_log).2⟩

/-- Claim C7: when the client holds a non-empty token, the request that `Do`
sends carries exactly one session header value, the token, whatever values the
request carried before; on the retry the same holds for the token taken from
the challenge. -/
theorem session_header_exactly_once {σ : Type} (h : HTTPClient σ) (c : rpcClient) (s : σ)
    (req : Request) (retry : Bool) :
    (∀ a, (Do h c s req retry).log.head? = some a → c.sessionID ≠ "" →
      a.sent.Header.values sessionHeader = [c.sessionID]) ∧
    (∀ a1 a2 r1, (Do h c s req retry).log = [a1, a2] → a1.answer = .ok r1 →
      r1.Header.Get sessionHeader ≠ "" →
      a2.sent.Header.values sessionHeader = [r1.Header.Get sessionHeader]) := by
  cases retry with
  | false =>
    rcases Do_false_shape h c s req with ⟨h0, _⟩ | ⟨b, b1, _, h1, _, _, _, hs1⟩
    · simp [h0]
    · refine ⟨?_, ?_⟩
      · intro a ha hne
        rw [h1] at ha
        cases ha
        rw [hs1]
        exact stamp_values _ _ hne
      · intro a1 a2 r1 hlog
        rw [h1] at hlog
        cases hlog
  | true =>
    rcases Do_true_shape h c s req with ⟨h0, _⟩ | ⟨b, b1, _, h1, _, _, _, hs1, _⟩ |
      ⟨b, b1, b2, r, hb, h2, hans, _, _, _, _, hs1, _, hs2⟩
    · simp [h0]
    · refine ⟨?_, ?_⟩
      · intro a ha hne
        rw [h1] at ha
        cases ha
        rw [hs1]
        exact stamp_values _ _ hne
      · intro a1 a2 r1 hlog
        rw [h1] at hlog
        cases hlog
    · refine ⟨?_, ?_⟩
      · intro a ha hne
        rw [h2] at ha
        cases ha
        rw [hs1]
        exact stamp_values _ _ hne
      · intro a1 a2 r1 hlog hr1 hne
        rw [h2] at hlog
        cases hlog
        rw [hans] at hr1
        cases hr1
        rw [hs2]
        exact stamp_values _ _ hne

theorem session_header_exactly_once_witness :
    ∃ a1 a2,
      (Do (challengeServer "abc123" [7]) ⟨sampleAddress, "old"⟩ () staleRequest true).log
        = [a1, a2] ∧
      staleRequest.Header.values sessionHeader = ["stale", "older"] ∧
      a1.sent.Header.values sessionHeader = ["old"] ∧
      a2.sent.Header.values sessionHeader = ["abc123"] :=
  ⟨_, _, staleRun_log, by simp [staleRequest, sessionOnly],
    (session_header_exactly_once (challengeServer "abc123" [7]) ⟨sampleAddress, "old"⟩ ()
      staleRequest true).1 _ (by rw [staleRun_log]; rfl) (by decide),
    (session_header_exactly_once (challengeServer "abc123" [7]) ⟨sampleAddress, "old"⟩ ()
      staleRequest true).2 _ _ (conflictResponse ["abc123"]) staleRun_log rfl
      (by simp [conflictResponse, Header.Get, sessionOnly])⟩

/-- Claim C1 (amended): when the first attempt of `getTorrents` is answered
with a 409 response that carries a non-empty session id `tok`, a second
attempt is made whose session header is `tok`, and the client holds `tok`
afterwards; when that second attempt is answered with status 200 and a body
that decodes to the result `"success"` with a torrent list, `getTorrents`
returns that list and no error. -/
theorem getTorrents_challenge_then_success {σ : Type} (lib : Lib) (h : HTTPClient σ)
    (c : rpcClient) (s : σ) (a1 : Attempt) (r1 : Response) (tok : String)
    (hfirst : (getTorrents lib h c s).log.head? = some a1)
    (hans : a1.answer = .ok r1) (h409 : r1.StatusCode = 409)
    (htok : r1.Header.Get sessionHeader = tok) (hne : tok ≠ "") :
    ∃ a2, (getTorrents lib h c s).log = [a1, a2] ∧
      a2.sent.Header.Get sessionHeader = tok ∧
      (getTorrents lib h c s).client.sessionID = tok ∧
      ∀ r2 body resp ts, a2.answer = .ok r2 → r2.StatusCode = 200 →
        ioutil_ReadAll r2.Body = .ok body →
        lib.jsonUnmarshal body ⟨some ⟨[]⟩, ""⟩ = .ok resp →
        resp.Result = "success" → resp.Arguments = some ts →
        (getTorrents lib h c s).val = .ok ts.Torrents := by
  obtain ⟨hlog, hcl, hval⟩ := getTorrents_state lib h c s
  rw [hlog] at hfirst
  rw [hlog, hcl, hval]
  rcases makeRequest_cases lib h c s getTorrentsRequest ⟨some ⟨[]⟩, ""⟩ with h0 | ⟨data, hd⟩
  · rw [h0] at hfirst
    cases hfirst
  · rw [hd] at hfirst ⊢
    simp only [] at hfirst ⊢
    rcases Do_true_shape h c s (rpcRequest lib c data) with ⟨e0, _⟩ | ⟨b, b1, _, e1, _, _, _, _, hno⟩ |
      ⟨b, b1, b2, r, hb, e2, hb1, _, ecl, ev, _, _, _, hs2⟩
    · rw [e0] at hfirst
      cases hfirst
    · rw [e1] at hfirst
      cases hfirst
      exact absurd h409 (hno r1 hans)
    · rw [e2] at hfirst
      cases hfirst
      rw [hans] at hb1
      cases hb1
      refine ⟨b2, e2, ?_, ?_, ?_⟩
      · rw [hs2, htok]
        exact stamp_Get _ _ hne
      · rw [ecl, htok]
      · intro r2 body resp ts ha2 h200 hbody hdec hres hargs
        rw [ev, ha2]
        simp [validate, h200, hbody, hdec, hres, hargs]

/-- Claim C5: when the last response of `makeRequest` has a status in 200..299
and a body that decodes with a result other than `"success"`, `makeRequest`
returns the error that names that result, and so does `getTorrents`, which
then returns no torrent list. -/
theorem rpc_failure_reported {σ : Type} (lib : Lib) (h : HTTPClient σ) (c : rpcClient) (s : σ)
    (tReq : request) (tResp : response) (a : Attempt) (resp : Response) (body : Bytes)
    (r : response)
    (hlast : (makeRequest lib h c s tReq tResp).log.getLast? = some a)
    (hans : a.answer = .ok resp)
    (h2xx : 200 ≤ resp.StatusCode ∧ resp.StatusCode ≤ 299)
    (hbody : ioutil_ReadAll resp.Body = .ok body)
    (hdec : lib.jsonUnmarshal body tResp = .ok r)
    (hres : r.Result ≠ "success") :
    (makeRequest lib h c s tReq tResp).val =
      .error (.errorf "transmission: request response %q" r.Result) ∧
    (tReq = getTorrentsRequest → tResp = ⟨some ⟨[]⟩, ""⟩ →
      (getTorrents lib h c s).val =
        .error (.errorf "transmission: request response %q" r.Result)) := by
  have key : (makeRequest lib h c s tReq tResp).val =
      .error (.errorf "transmission: request response %q" r.Result) := by
    rcases makeRequest_cases lib h c s tReq tResp with h0 | ⟨data, hd⟩
    · rw [h0] at hlast
      cases hlast
    · rw [hd] at hlast ⊢
      simp only [] at hlast ⊢
      rw [Do_val_eq_last h c s _ true a hlast, hans]
      have h1 : ¬ (resp.StatusCode < 200 ∨ resp.StatusCode > 299) := by omega
      simp [validate, h1, hbody, hdec, hres]
  refine ⟨key, ?_⟩
  intro hq hp
  subst hq hp
  rw [(getTorrents_state lib h c s).2.2, key]

/-- Claim C6: when the last response of `makeRequest` has a status outside
200..299, `makeRequest` returns the error that carries its status text,
whatever its body; and when both attempts are answered with a 409 response,
`Do` returns the second response with no error and `getTorrents` returns the
error that carries the status text of that response. -/
theorem http_failure_reported {σ : Type} (lib : Lib) (h : HTTPClient σ) (c : rpcClient) (s : σ)
    (tReq : request) (tResp : response) :
    (∀ a resp, (makeRequest lib h c s tReq tResp).log.getLast? = some a →
      a.answer = .ok resp → (resp.StatusCode < 200 ∨ resp.StatusCode > 299) →
      (makeRequest lib h c s tReq tResp).val =
        .error (.errorf "got http error %s" resp.Status)) ∧
    (∀ req a1 a2 r1 r2, (Do h c s req true).log = [a1, a2] →
      a1.answer = .ok r1 → r1.StatusCode = 409 →
      a2.answer = .ok r2 → r2.StatusCode = 409 →
      (Do h c s req true).val.1 = .ok r2) ∧
    (∀ a1 a2 r1 r2, (getTorrents lib h c s).log = [a1, a2] →
      a1.answer = .ok r1 → r1.StatusCode = 409 →
      a2.answer = .ok r2 → r2.StatusCode = 409 →
      (getTorrents lib h c s).val = .error (.errorf "got http error %s" r2.Status)) := by
  have key : ∀ (tReq : request) (tResp : response) (a : Attempt) (resp : Response),
      (makeRequest lib h c s tReq tResp).log.getLast? = some a →
      a.answer = .ok resp → (resp.StatusCode < 200 ∨ resp.StatusCode > 299) →
      (makeRequest lib h c s tReq tResp).val =
        .error (.errorf "got http error %s" resp.Status) := by
    intro tReq tResp a resp hlast hans hbad
    rcases makeRequest_cases lib h c s tReq tResp with h0 | ⟨data, hd⟩
    · rw [h0] at hlast
      cases hlast
    · rw [hd] at hlast ⊢
      simp only [] at hlast ⊢
      rw [Do_val_eq_last h c s _ true a hlast, hans]
      simp [validate, hbad]
  refine ⟨key tReq tResp, ?_, ?_⟩
  · intro req a1 a2 r1 r2 hlog _ _ ha2 _
    rw [Do_val_eq_last h c s req true a2 (by rw [hlog]; rfl), ha2]
  · intro a1 a2 r1 r2 hlog _ _ ha2 h409
    obtain ⟨elog, _, eval⟩ := getTorrents_state lib h c s
    rw [elog] at hlog
    rw [eval, key getTorrentsRequest ⟨some ⟨[]⟩, ""⟩ a2 r2 (by rw [hlog]; rfl) ha2
      (by rw [h409]; right; decide)]

/-- The run of the repository's test: a fresh client, a server that wants
the session id `"session-id-123"`. -/
theorem testRun :
    getTorrents sampleLib (challengeServer "session-id-123" [7]) ⟨sampleAddress, ""⟩ () =
      ⟨.ok [some sampleTorrent], ⟨sampleAddress, "session-id-123"⟩, (),
        [(single "" ⟨"POST", sampleLib.urlString sampleAddress, Header.empty, [1, 2, 3]⟩
            (.ok (conflictResponse ["session-id-123"]))),
         (single "session-id-123" ⟨"POST", sampleLib.urlString sampleAddress,
            stamp "session-id-123" Header.empty, [1, 2, 3]⟩ (.ok (okResponse [7])))]⟩ := by
  simp [getTorrents, makeRequest, http_NewRequest, sampleLib, Do_true_eq, ReadAll_NewBuffer,
    HTTPClient.follow, followRedirects, single,
    challengeServer, stamp, Header.Get, Header.Add, Header.Del, Header.empty, sessionOnly,
    sessionHeader, http_StatusConflict, conflictResponse, okResponse, ioutil_ReadAll,
    bytes_NewBuffer, getTorrentsRequest]

/-- A client that holds `"old"` meets a server whose 409 response carries the
empty session id: the retry goes out with the old token. -/
theorem emptyTokenRun :
    getTorrents sampleLib (onceServer [""] [7]) ⟨sampleAddress, "old"⟩ 0 =
      ⟨.ok [some sampleTorrent], ⟨sampleAddress, ""⟩, 2,
        [(single "old" ⟨"POST", sampleLib.urlString sampleAddress, stamp "old" Header.empty,
            [1, 2, 3]⟩ (.ok (conflictResponse [""]))),
         (single "" ⟨"POST", sampleLib.urlString sampleAddress, stamp "old" Header.empty,
            [1, 2, 3]⟩ (.ok (okResponse [7])))]⟩ := by
  simp [getTorrents, makeRequest, http_NewRequest, sampleLib, Do_true_eq, ReadAll_NewBuffer,
    HTTPClient.follow, followRedirects, single,
    onceServer, stamp, Header.Get, Header.Add, Header.Del, Header.empty, sessionOnly,
    sessionHeader, http_StatusConflict, conflictResponse, okResponse, ioutil_ReadAll,
    bytes_NewBuffer, getTorrentsRequest]

/-- The server of the test answers with a body whose result is `"busy"`. -/
theorem busyRun :
    getTorrents sampleLib (challengeServer "session-id-123" [8]) ⟨sampleAddress, ""⟩ () =
      ⟨.error (.errorf "transmission: request response %q" "busy"),
        ⟨sampleAddress, "session-id-123"⟩, (),
        [(single "" ⟨"POST", sampleLib.urlString sampleAddress, Header.empty, [1, 2, 3]⟩
            (.ok (conflictResponse ["session-id-123"]))),
         (single "session-id-123" ⟨"POST", sampleLib.urlString sampleAddress,
            stamp "session-id-123" Header.empty, [1, 2, 3]⟩ (.ok (okResponse [8])))]⟩ := by
  simp [getTorrents, makeRequest, http_NewRequest, sampleLib, Do_true_eq, ReadAll_NewBuffer,
    HTTPClient.follow, followRedirects, single,
    challengeServer, stamp, Header.Get, Header.Add, Header.Del, Header.empty, sessionOnly,
    sessionHeader, http_StatusConflict, conflictResponse, okResponse, ioutil_ReadAll,
    bytes_NewBuffer, getTorrentsRequest]

/-- A server that answers every request with a 409 response. -/
theorem conflictRun :
    getTorrents sampleLib (conflictServer ["abc123"]) ⟨sampleAddress, ""⟩ () =
      ⟨.error (.errorf "got http error %s" "409 Conflict"), ⟨sampleAddress, "abc123"⟩, (),
        [(single "" ⟨"POST", sampleLib.urlString sampleAddress, Header.empty, [1, 2, 3]⟩
            (.ok (conflictResponse ["abc123"]))),
         (single "abc123" ⟨"POST", sampleLib.urlString sampleAddress,
            stamp "abc123" Header.empty, [1, 2, 3]⟩ (.ok (conflictResponse ["abc123"])))]⟩ := by
  simp [getTorrents, makeRequest, http_NewRequest, sampleLib, Do_true_eq, ReadAll_NewBuffer,
    HTTPClient.follow, followRedirects, single,
    conflictServer, stamp, Header.Get, Header.Add, Header.Del, Header.empty, sessionOnly,
    sessionHeader, http_StatusConflict, conflictResponse, okResponse, ioutil_ReadAll,
    bytes_NewBuffer, getTorrentsRequest]

/-- The stale request against a server that answers every request with a 409
response: two attempts. -/
theorem conflictDo_log :
    (Do (conflictServer ["abc123"]) ⟨sampleAddress, "old"⟩ () staleRequest true).log =
      [(single "old" ⟨"POST", "http://127.0.0.1:9091/transmission/rpc",
          stamp "old" (sessionOnly ["stale", "older"]), [4, 5, 6]⟩
            (.ok (conflictResponse ["abc123"]))),
       (single "abc123" ⟨"POST", "http://127.0.0.1:9091/transmission/rpc",
          stamp "abc123" (stamp "old" (sessionOnly ["stale", "older"])), [4, 5, 6]⟩
            (.ok (conflictResponse ["abc123"])))] := by
  simp [Do_true_eq, staleRequest, ReadAll_NewBuffer,
    HTTPClient.follow, followRedirects, single, conflictServer, stamp, Header.Get,
    Header.Add, Header.Del, sessionOnly, sessionHeader, http_StatusConflict, conflictResponse]

theorem getTorrents_challenge_then_success_witness :
    ∃ a2,
      (getTorrents sampleLib (challengeServer "session-id-123" [7]) ⟨sampleAddress, ""⟩ ()).log
        = [(single "" ⟨"POST", sampleLib.urlString sampleAddress, Header.empty, [1, 2, 3]⟩
            (.ok (conflictResponse ["session-id-123"]))), a2] ∧
      a2.sent.Header.Get sessionHeader = "session-id-123" ∧
      (getTorrents sampleLib (challengeServer "session-id-123" [7])
        ⟨sampleAddress, ""⟩ ()).client.sessionID = "session-id-123" ∧
      (getTorrents sampleLib (challengeServer "session-id-123" [7])
        ⟨sampleAddress, ""⟩ ()).val = .ok [some sampleTorrent] := by
  obtain ⟨a2, hlog, hget, hcl, hval⟩ :=
    getTorrents_challenge_then_success sampleLib (challengeServer "session-id-123" [7])
      ⟨sampleAddress, ""⟩ ()
      (single "" ⟨"POST", sampleLib.urlString sampleAddress, Header.empty, [1, 2, 3]⟩
          (.ok (conflictResponse ["session-id-123"])))
      (conflictResponse ["session-id-123"]) "session-id-123"
      (by rw [testRun]; rfl) rfl rfl (by simp [conflictResponse, Header.Get, sessionOnly])
      (by decide)
  have ha2 : a2.answer = .ok (okResponse [7]) := by
    have h2 := hlog
    rw [testRun] at h2
    simp only [List.cons.injEq, true_and, and_true] at h2
    rw [← h2]
    rfl
  exact ⟨a2, hlog, hget, hcl,
    hval (okResponse [7]) [7] ⟨some ⟨[some sampleTorrent]⟩, "success"⟩ ⟨[some sampleTorrent]⟩
      ha2 rfl rfl rfl rfl rfl⟩

/-- Claim C1 fails as stated: a client that holds the token `"old"` gets a 409
response whose session header carries the empty value, then a 200 response
with a success body; the second attempt carries `"old"`, not the value of the
challenge. -/
theorem challenge_token_counterexample :
    ∃ a1 a2 r1 r2 resp,
      (getTorrents sampleLib (onceServer [""] [7]) ⟨sampleAddress, "old"⟩ 0).log = [a1, a2] ∧
      a1.answer = .ok r1 ∧ r1.StatusCode = 409 ∧ r1.Header.values sessionHeader = [""] ∧
      a2.answer = .ok r2 ∧ r2.StatusCode = 200 ∧
      sampleLib.jsonUnmarshal r2.Body.data ⟨some ⟨[]⟩, ""⟩ = .ok resp ∧
      resp.Result = "success" ∧
      a2.sent.Header.Get sessionHeader = "old" ∧
      a2.sent.Header.Get sessionHeader ≠ r1.Header.Get sessionHeader := by
  refine ⟨_, _, conflictResponse [""], okResponse [7],
    ⟨some ⟨[some sampleTorrent]⟩, "success"⟩,
    congrArg Out.log emptyTokenRun, rfl, rfl, ?_, rfl, rfl, rfl, rfl, ?_, ?_⟩
  · simp [conflictResponse, sessionOnly]
  · simp [single, stamp, Header.Get, Header.Add, Header.Del, Header.empty]
  · simp [single, stamp, Header.Get, Header.Add, Header.Del, Header.empty, conflictResponse,
      sessionOnly]

theorem rpc_failure_reported_witness :
    (makeRequest sampleLib (challengeServer "session-id-123" [8]) ⟨sampleAddress, ""⟩ ()
      getTorrentsRequest ⟨some ⟨[]⟩, ""⟩).val =
        .error (.errorf "transmission: request response %q" "busy") ∧
    (getTorrents sampleLib (challengeServer "session-id-123" [8]) ⟨sampleAddress, ""⟩ ()).val =
        .error (.errorf "transmission: request response %q" "busy") := by
  have h := rpc_failure_reported sampleLib (challengeServer "session-id-123" [8])
    ⟨sampleAddress, ""⟩ () getTorrentsRequest ⟨some ⟨[]⟩, ""⟩
    (single "session-id-123" ⟨"POST", sampleLib.urlString sampleAddress,
      stamp "session-id-123" Header.empty, [1, 2, 3]⟩ (.ok (okResponse [8])))
    (okResponse [8]) [8] ⟨some ⟨[]⟩, "busy"⟩
    (by rw [← (getTorrents_state _ _ _ _).1, busyRun]; rfl) rfl
    (by simp [okResponse]) rfl rfl (by decide)
  exact ⟨h.1, h.2 rfl rfl⟩

theorem http_failure_reported_witness :
    (makeRequest sampleLib (conflictServer ["abc123"]) ⟨sampleAddress, ""⟩ ()
      getTorrentsRequest ⟨some ⟨[]⟩, ""⟩).val =
        .error (.errorf "got http error %s" "409 Conflict") ∧
    (getTorrents sampleLib (conflictServer ["abc123"]) ⟨sampleAddress, ""⟩ ()).val =
        .error (.errorf "got http error %s" "409 Conflict") ∧
    (Do (conflictServer ["abc123"]) ⟨sampleAddress, "old"⟩ () staleRequest true).val.1 =
        .ok (conflictResponse ["abc123"]) := by
  have h := http_failure_reported sampleLib (conflictServer ["abc123"])
    ⟨sampleAddress, ""⟩ () getTorrentsRequest ⟨some ⟨[]⟩, ""⟩
  have h2 := http_failure_reported sampleLib (conflictServer ["abc123"])
    ⟨sampleAddress, "old"⟩ () getTorrentsRequest ⟨some ⟨[]⟩, ""⟩
  refine ⟨?_, ?_, ?_⟩
  · exact h.1 (single "abc123" ⟨"POST", sampleLib.urlString sampleAddress,
      stamp "abc123" Header.empty, [1, 2, 3]⟩ (.ok (conflictResponse ["abc123"])))
      (conflictResponse ["abc123"])
      (by rw [← (getTorrents_state _ _ _ _).1, conflictRun]; rfl) rfl
      (by simp [conflictResponse])
  · exact h.2.2 _ _ (conflictResponse ["abc123"]) (conflictResponse ["abc123"])
      (congrArg Out.log conflictRun) rfl rfl rfl rfl
  · exact h2.2.1 staleRequest _ _ (conflictResponse ["abc123"]) (conflictResponse ["abc123"])
      conflictDo_log rfl rfl rfl rfl

theorem challengeIn_append_left {l1 l2 : List Attempt} {t : String}
    (h : challengeIn l1 t) : challengeIn (l1 ++ l2) t := by
  obtain ⟨a, ha, r, h1, h2, h3⟩ := h
  exact ⟨a, List.mem_append_left _ ha, r, h1, h2, h3⟩

theorem challengeIn_append_right {l1 l2 : List Attempt} {t : String}
    (h : challengeIn l2 t) : challengeIn (l1 ++ l2) t := by
  obtain ⟨a, ha, r, h1, h2, h3⟩ := h
  exact ⟨a, List.mem_append_right _ ha, r, h1, h2, h3⟩

/-- What one call of `Do` does to the token: the client ends with the token
it had or with the session id of a 409 response of this call; each request
went out under one of these; and a request that went out under a non-empty
token carries exactly that token. -/
theorem Do_session {σ : Type} (h : HTTPClient σ) (c : rpcClient) (s : σ) (req : Request)
    (retry : Bool) :
    ((Do h c s req retry).client.sessionID = c.sessionID ∨
      challengeIn (Do h c s req retry).log (Do h c s req retry).client.sessionID) ∧
    (∀ a ∈ (Do h c s req retry).log,
      a.token = c.sessionID ∨ challengeIn (Do h c s req retry).log a.token) ∧
    (∀ a ∈ (Do h c s req retry).log, a.token ≠ "" →
      a.sent.Header.values sessionHeader = [a.token]) := by
  cases retry with
  | false =>
    rcases Do_false_shape h c s req with ⟨h0, hc⟩ | ⟨b, b1, _, h1, hc, _, ht1, hs1⟩
    · simp [h0, hc]
    · rw [h1, hc]
      refine ⟨Or.inl rfl, ?_, ?_⟩
      · intro a ha
        simp only [List.mem_singleton] at ha
        subst ha
        exact Or.inl ht1
      · intro a ha hne
        simp only [List.mem_singleton] at ha
        subst ha
        rw [hs1, ht1]
        exact stamp_values _ _ (ht1 ▸ hne)
  | true =>
    rcases Do_true_shape h c s req with ⟨h0, hc⟩ | ⟨b, b1, _, h1, hc, _, ht1, hs1, _⟩ |
      ⟨b, b1, b2, r, hb, h2, hans, h9, hc, _, ht1, hs1, ht2, hs2⟩
    · simp [h0, hc]
    · rw [h1, hc]
      refine ⟨Or.inl rfl, ?_, ?_⟩
      · intro a ha
        simp only [List.mem_singleton] at ha
        subst ha
        exact Or.inl ht1
      · intro a ha hne
        simp only [List.mem_singleton] at ha
        subst ha
        rw [hs1, ht1]
        exact stamp_values _ _ (ht1 ▸ hne)
    · rw [h2, hc]
      have hch : challengeIn [b1, b2] (r.Header.Get sessionHeader) :=
        ⟨b1, List.mem_cons_self _ _, r, hans, h9, rfl⟩
      refine ⟨Or.inr hch, ?_, ?_⟩
      · intro a ha
        simp only [List.mem_cons, List.mem_singleton, List.not_mem_nil, or_false] at ha
        rcases ha with ha | ha
        · subst ha
          exact Or.inl ht1
        · subst ha
          rw [ht2]
          exact Or.inr hch
      · intro a ha hne
        simp only [List.mem_cons, List.mem_singleton, List.not_mem_nil, or_false] at ha
        rcases ha with ha | ha
        · subst ha
          rw [hs1, ht1]
          exact stamp_values _ _ (ht1 ▸ hne)
        · subst ha
          rw [hs2, ht2]
          exact stamp_values _ _ (ht2 ▸ hne)

/-- Claim C4 (amended): over any sequence of calls of `Do`, the client ends
with the token it started with or with the session id of a 409 response it
received; every request goes out under one of these tokens and, when that
token is not empty, carries exactly it as its session header; and when the
client starts with a non-empty token and no 409 response carries an empty
session id, the token is non-empty at the end and at every request. -/
theorem session_token_invariant {σ : Type} (h : HTTPClient σ) (c : rpcClient) (s : σ)
    (calls : List (Request × Bool)) :
    ((runCalls h c s calls).client.sessionID = c.sessionID ∨
      challengeIn (runCalls h c s calls).log (runCalls h c s calls).client.sessionID) ∧
    (∀ a ∈ (runCalls h c s calls).log,
      a.token = c.sessionID ∨ challengeIn (runCalls h c s calls).log a.token) ∧
    (∀ a ∈ (runCalls h c s calls).log, a.token ≠ "" →
      a.sent.Header.values sessionHeader = [a.token]) ∧
    (c.sessionID ≠ "" → (∀ t, challengeIn (runCalls h c s calls).log t → t ≠ "") →
      (runCalls h c s calls).client.sessionID ≠ "" ∧
      ∀ a ∈ (runCalls h c s calls).log,
        a.token ≠ "" ∧ a.sent.Header.values sessionHeader = [a.token]) := by
  have main : ∀ (calls : List (Request × Bool)) (c : rpcClient) (s : σ),
      ((runCalls h c s calls).client.sessionID = c.sessionID ∨
        challengeIn (runCalls h c s calls).log (runCalls h c s calls).client.sessionID) ∧
      (∀ a ∈ (runCalls h c s calls).log,
        a.token = c.sessionID ∨ challengeIn (runCalls h c s calls).log a.token) ∧
      (∀ a ∈ (runCalls h c s calls).log, a.token ≠ "" →
        a.sent.Header.values sessionHeader = [a.token]) := by
    intro calls
    induction calls with
    | nil =>
      intro c s
      simp [runCalls]
    | cons call rest ih =>
      intro c s
      obtain ⟨req, retry⟩ := call
      obtain ⟨d1, d2, d3⟩ := Do_session h c s req retry
      obtain ⟨i1, i2, i3⟩ := ih (Do h c s req retry).client (Do h c s req retry).server
      simp only [runCalls]
      refine ⟨?_, ?_, ?_⟩
      · rcases i1 with i1 | i1
        · rw [i1]
          rcases d1 with d1 | d1
          · exact Or.inl d1
          · exact Or.inr (challengeIn_append_left d1)
        · exact Or.inr (challengeIn_append_right i1)
      · intro a ha
        rcases List.mem_append.mp ha with ha | ha
        · rcases d2 a ha with e | e
          · exact Or.inl e
          · exact Or.inr (challengeIn_append_left e)
        · rcases i2 a ha with e | e
          · rw [e]
            rcases d1 with d1 | d1
            · exact Or.inl d1
            · exact Or.inr (challengeIn_append_left d1)
          · exact Or.inr (challengeIn_append_right e)
      · intro a ha hne
        rcases List.mem_append.mp ha with ha | ha
        · exact d3 a ha hne
        · exact i3 a ha hne
  obtain ⟨m1, m2, m3⟩ := main calls c s
  refine ⟨m1, m2, m3, ?_⟩
  intro hc hall
  have htok : ∀ a ∈ (runCalls h c s calls).log, a.token ≠ "" := by
    intro a ha
    rcases m2 a ha with e | e
    · rw [e]
      exact hc
    · exact hall _ e
  refine ⟨?_, fun a ha => ⟨htok a ha, m3 a ha (htok a ha)⟩⟩
  rcases m1 with e | e
  · rw [e]
    exact hc
  · exact hall _ e

/-- Two calls in a row on the client that holds `"old"`: the first is
challenged and retried, the second goes through at once. -/
theorem sequenceRun :
    runCalls (challengeServer "abc123" [7]) ⟨sampleAddress, "old"⟩ ()
        [(staleRequest, true), (staleRequest, false)] =
      ⟨(), ⟨sampleAddress, "abc123"⟩, (),
        [(single "old" ⟨"POST", "http://127.0.0.1:9091/transmission/rpc",
            stamp "old" (sessionOnly ["stale", "older"]), [4, 5, 6]⟩
              (.ok (conflictResponse ["abc123"]))),
         (single "abc123" ⟨"POST", "http://127.0.0.1:9091/transmission/rpc",
            stamp "abc123" (stamp "old" (sessionOnly ["stale", "older"])), [4, 5, 6]⟩
              (.ok (okResponse [7]))),
         (single "abc123" ⟨"POST", "http://127.0.0.1:9091/transmission/rpc",
            stamp "abc123" (sessionOnly ["stale", "older"]), [4, 5, 6]⟩
              (.ok (okResponse [7])))]⟩ := by
  simp [runCalls, Do_true_eq, Do_false_eq, staleRequest, ReadAll_NewBuffer,
    HTTPClient.follow, followRedirects, single, challengeServer,
    stamp, Header.Get, Header.Add, Header.Del, sessionOnly, sessionHeader, http_StatusConflict,
    conflictResponse, okResponse]

theorem session_token_invariant_witness :
    (runCalls (challengeServer "abc123" [7]) ⟨sampleAddress, "old"⟩ ()
      [(staleRequest, true), (staleRequest, false)]).log.length = 3 ∧
    (runCalls (challengeServer "abc123" [7]) ⟨sampleAddress, "old"⟩ ()
      [(staleRequest, true), (staleRequest, false)]).client.sessionID ≠ "" ∧
    ∀ a ∈ (runCalls (challengeServer "abc123" [7]) ⟨sampleAddress, "old"⟩ ()
      [(staleRequest, true), (staleRequest, false)]).log,
      a.token ≠ "" ∧ a.sent.Header.values sessionHeader = [a.token] := by
  refine ⟨by rw [sequenceRun]; rfl, ?_⟩
  refine (session_token_invariant (challengeServer "abc123" [7]) ⟨sampleAddress, "old"⟩ ()
    [(staleRequest, true), (staleRequest, false)]).2.2.2 (by decide) ?_
  intro t ht
  rw [sequenceRun] at ht
  obtain ⟨a, ha, r, h1, h2, h3⟩ := ht
  simp only [List.mem_cons, List.mem_singleton, List.not_mem_nil, or_false] at ha
  rcases ha with ha | ha | ha
  · subst ha
    simp only [single, Except.ok.injEq] at h1
    subst h1
    rw [← h3]
    simp [conflictResponse, Header.Get, sessionOnly]
  · subst ha
    simp only [single, Except.ok.injEq] at h1
    subst h1
    simp [okResponse] at h2
  · subst ha
    simp only [single, Except.ok.injEq] at h1
    subst h1
    simp [okResponse] at h2

/-- Claim C4 fails as stated: a client that holds the token `"old"` and gets
a 409 response without a session header holds the empty token afterwards. -/
theorem session_token_cleared_counterexample :
    (⟨sampleAddress, "old"⟩ : rpcClient).sessionID ≠ "" ∧
    (Do (conflictServer []) ⟨sampleAddress, "old"⟩ () staleRequest true).client.sessionID = "" ∧
    (runCalls (conflictServer []) ⟨sampleAddress, "old"⟩ ()
      [(staleRequest, true)]).client.sessionID = "" := by
  refine ⟨by decide, ?_, ?_⟩
  · simp [Do_true_eq, staleRequest, ReadAll_NewBuffer,
  HTTPClient.follow, followRedirects, single, conflictServer, stamp, Header.Get,
      Header.Add, Header.Del, sessionOnly, sessionHeader, http_StatusConflict,
      conflictResponse]
  · simp [runCalls, Do_true_eq, staleRequest, ReadAll_NewBuffer,
  HTTPClient.follow, followRedirects, single, conflictServer, stamp,
      Header.Get, Header.Add, Header.Del, sessionOnly, sessionHeader, http_StatusConflict,
      conflictResponse]

/-- Claim C8: `getTorrentStatus` maps 0 to 6 to their labels and every other
integer to `"unknown"`. -/
theorem getTorrentStatus_table :
    getTorrentStatus 0 = "stopped" ∧ getTorrentStatus 1 = "check_wait" ∧
    getTorrentStatus 2 = "checking" ∧ getTorrentStatus 3 = "download_wait" ∧
    getTorrentStatus 4 = "downloading" ∧ getTorrentStatus 5 = "seed_wait" ∧
    getTorrentStatus 6 = "seeding" ∧
    ∀ n : Int, (n < 0 ∨ 6 < n) → getTorrentStatus n = "unknown" := by
  refine ⟨rfl, rfl, rfl, rfl, rfl, rfl, rfl, ?_⟩
  intro n hn
  have h0 : (n == 0) = false := by simp; omega
  have h1 : (n == 1) = false := by simp; omega
  have h2 : (n == 2) = false := by simp; omega
  have h3 : (n == 3) = false := by simp; omega
  have h4 : (n == 4) = false := by simp; omega
  have h5 : (n == 5) = false := by simp; omega
  have h6 : (n == 6) = false := by simp; omega
  simp [getTorrentStatus, statuses, List.lookup, h0, h1, h2, h3, h4, h5, h6]

theorem getTorrentStatus_table_witness :
    getTorrentStatus 7 = "unknown" ∧ getTorrentStatus (-1) = "unknown" :=
  ⟨getTorrentStatus_table.2.2.2.2.2.2.2 7 (Or.inr (by decide)),
   getTorrentStatus_table.2.2.2.2.2.2.2 (-1) (Or.inl (by decide))⟩

/-- Claim C9: `getTorrentTracker` returns `"unknown"` for the empty list;
otherwise it parses the announce URL of the first tracker and returns its
hostname when the URL parses and `"parse_error"` when it does not, whatever
trackers follow. -/
theorem getTorrentTracker_first (lib : Lib) :
    getTorrentTracker lib [] = "unknown" ∧
    ∀ (first : Tracker) (rest : List Tracker),
      getTorrentTracker lib (first :: rest) =
        match lib.urlParse first.Announce with
        | .ok address => lib.urlHostname address
        | .error _ => "parse_error" := by
  refine ⟨rfl, ?_⟩
  intro first rest
  simp only [getTorrentTracker]
  cases lib.urlParse first.Announce <;> rfl

theorem foldl_some_map {α β : Type} (f : α → β)
    (F : Outcome Unit × List β → Option α → Outcome Unit × List β)
    (hF : ∀ acc x, F (.ok (), acc) (some x) = (.ok (), acc ++ [f x]))
    (l : List α) (acc : List β) :
    (l.map some).foldl F (.ok (), acc) = (.ok (), acc ++ l.map f) := by
  induction l generalizing acc with
  | nil => simp
  | cons x xs ih => simp [hF, ih]

theorem Do_address {σ : Type} (h : HTTPClient σ) (c : rpcClient) (s : σ) (req : Request) :
    (Do h c s req true).client.Address = c.Address := by
  rcases Do_true_shape h c s req with ⟨_, hc⟩ | ⟨b, b1, _, _, hc, _⟩ |
    ⟨b, b1, b2, r, _, _, _, _, hc, _⟩ <;> rw [hc]

theorem getTorrents_address {σ : Type} (lib : Lib) (h : HTTPClient σ) (c : rpcClient) (s : σ) :
    (getTorrents lib h c s).client.Address = c.Address := by
  rw [(getTorrents_state lib h c s).2.1]
  cases hm : lib.jsonMarshal getTorrentsRequest with
  | error e => simp [makeRequest, hm]
  | ok data =>
    cases hn : lib.newRequestError "POST" (lib.urlString c.Address) with
    | some e => simp [makeRequest, hm, http_NewRequest, hn]
    | none =>
      rw [makeRequest_built lib h c s _ _ data hm hn]
      exact Do_address h c s _

/-- Claim C10 (amended): when `getTorrents` returns a torrent list without
nil elements, `gatherMetrics` adds one `"transmission"` metric per torrent, in
list order, with the seven fields and six tags taken from the torrent and from
the client address, and returns no error; when `getTorrents` returns an error,
`gatherMetrics` adds nothing and returns that error. -/
theorem gatherMetrics_emits {σ : Type} (lib : Lib) (h : HTTPClient σ) (c : rpcClient) (s : σ)
    (acc : List Metric) :
    (∀ l : List torrent, (getTorrents lib h c s).val = .ok (l.map some) →
      (gatherMetrics lib h c s acc).val =
        (.ok (), acc ++ l.map (fun tor =>
          ⟨"transmission",
           [("downloaded", .int64 tor.DownloadedEver),
            ("error", .int tor.Error),
            ("peers_connected", .int tor.PeersConnected),
            ("rate_download", .int tor.RateDownload),
            ("rate_upload", .int tor.RateUpload),
            ("uploaded", .int64 tor.UploadedEver),
            ("percent_done", .float64 tor.PercentDone)],
           [("hash", tor.HashString),
            ("host", (splitHostPort lib c.Address).1),
            ("name", tor.Name),
            ("port", (splitHostPort lib c.Address).2),
            ("status", getTorrentStatus tor.Status),
            ("tracker", getTorrentTracker lib tor.Trackers)]⟩))) ∧
    (∀ e, (getTorrents lib h c s).val = .error e →
      (gatherMetrics lib h c s acc).val = (.error e, acc)) := by
  refine ⟨?_, ?_⟩
  · intro l hl
    simp only [gatherMetrics, hl, getTorrents_address]
    exact foldl_some_map _ _ (fun _ _ => rfl) l acc
  · intro e he
    simp only [gatherMetrics, he]

theorem gatherMetrics_emits_witness :
    (gatherMetrics sampleLib (challengeServer "session-id-123" [7]) ⟨sampleAddress, ""⟩ ()
      []).val =
      (.ok (),
        [⟨"transmission",
          [("downloaded", .int64 1000), ("error", .int 0), ("peers_connected", .int 789),
           ("rate_download", .int 2000), ("rate_upload", .int 4000), ("uploaded", .int64 222),
           ("percent_done", .float64 0.75)],
          [("hash", "000000"), ("host", "127.0.0.1"), ("name", "Macron Super Star"),
           ("port", "9091"), ("status", "seeding"), ("tracker", "tracker.hello.cc")]⟩]) ∧
    (gatherMetrics sampleLib (challengeServer "session-id-123" [8]) ⟨sampleAddress, ""⟩ ()
      []).val = (.error (.errorf "transmission: request response %q" "busy"), []) := by
  refine ⟨?_, ?_⟩
  · rw [(gatherMetrics_emits sampleLib (challengeServer "session-id-123" [7])
      ⟨sampleAddress, ""⟩ () []).1 [sampleTorrent] (congrArg Out.val testRun)]
    simp [sampleTorrent, splitHostPort, sampleLib, sampleAddress, getTorrentStatus, statuses,
      List.lookup, getTorrentTracker]
  · exact (gatherMetrics_emits sampleLib (challengeServer "session-id-123" [8])
      ⟨sampleAddress, ""⟩ () []).2 _ (congrArg Out.val busyRun)

/-- The server of the test answers with a body whose torrent list is
`[null]`. -/
theorem nilRun :
    (getTorrents sampleLib (challengeServer "session-id-123" [9]) ⟨sampleAddress, ""⟩ ()).val =
      .ok [none] := by
  simp [getTorrents, makeRequest, http_NewRequest, sampleLib, Do_true_eq, ReadAll_NewBuffer,
    HTTPClient.follow, followRedirects, challengeServer, stamp, Header.Get, Header.Add,
    Header.Del, Header.empty, sessionOnly, sessionHeader, http_StatusConflict,
    conflictResponse, okResponse, ioutil_ReadAll, bytes_NewBuffer, getTorrentsRequest]

/-- Claim C10 fails as stated: `getTorrents` returns a list of one element,
a nil pointer, and `gatherMetrics` adds no metric and panics. -/
theorem nil_torrent_counterexample :
    (getTorrents sampleLib (challengeServer "session-id-123" [9]) ⟨sampleAddress, ""⟩ ()).val =
      .ok [none] ∧
    (gatherMetrics sampleLib (challengeServer "session-id-123" [9]) ⟨sampleAddress, ""⟩ ()
      []).val = (.panic "invalid memory address or nil pointer dereference", []) := by
  refine ⟨nilRun, ?_⟩
  simp only [gatherMetrics, nilRun]
  rfl

end Transmission
